import Mathlib

/- Verification development for the projectsveltos classifier-agent
   (pkg/classification). The manager state machine is embedded from
   pkg/classification/manager.go; the constraint evaluator and report
   reconciler, whose implementation file is not part of the sources in
   view, are modelled from the specification. -/

set_option maxHeartbeats 1000000

namespace ClassifierAgent

/- k8s.io/apimachinery schema.GroupVersionKind -/
structure GroupVersionKind where
  group : String
  version : String
  kind : String
deriving DecidableEq, Repr

/- libsveltosv1alpha1.ClusterType: either Capi or Sveltos -/
inductive ClusterType where
  | capi
  | sveltos
deriving DecidableEq, Repr

/- String form of a ClusterType, as the Go string constants "Capi"/"Sveltos" -/
def clusterTypeString : ClusterType → String
  | ClusterType.capi => "Capi"
  | ClusterType.sveltos => "Sveltos"

/- manager struct from manager.go. Function-valued fields (log, Client,
   config, react) and the CancelFunc values of the watchers map are not
   observable by the claims and are omitted; watchers keeps the key set. -/
structure Manager where
  sendReport : Bool
  clusterNamespace : String
  clusterName : String
  clusterType : ClusterType
  rebuildResourceToWatch : Nat
  resourcesToWatch : List GroupVersionKind
  jobQueue : List String
  interval : Nat
  watchers : List GroupVersionKind
  unknownResourcesToWatch : List GroupVersionKind
deriving DecidableEq, Repr

/- The manager built by the body of InitializeManager in manager.go:
   empty job queue, interval from the argument, empty watch state, and
   the configuration fields copied from the arguments. -/
def newManager (clusterNamespace clusterName : String) (clusterType : ClusterType)
    (intervalInSecond : Nat) (sendReport : Bool) : Manager :=
  { sendReport := sendReport
    clusterNamespace := clusterNamespace
    clusterName := clusterName
    clusterType := clusterType
    rebuildResourceToWatch := 0
    resourcesToWatch := []
    jobQueue := []
    interval := intervalInSecond
    watchers := []
    unknownResourcesToWatch := [] }

/- InitializeManager from manager.go: constructs the singleton only when
   managerInstance is nil; otherwise it is a no-op regardless of arguments. -/
def InitializeManager (managerInstance : Option Manager)
    (clusterNamespace clusterName : String) (clusterType : ClusterType)
    (intervalInSecond : Nat) (sendReport : Bool) : Option Manager :=
  match managerInstance with
  | none => some (newManager clusterNamespace clusterName clusterType intervalInSecond sendReport)
  | some m => some m

/- GetManager from manager.go: returns the instance, or nil when not yet
   initialized. -/
def GetManager (managerInstance : Option Manager) : Option Manager :=
  match managerInstance with
  | some m => some m
  | none => none

/- EvaluateClassifier from manager.go: under the queue mutex, appends the
   classifier name to jobQueue. -/
def EvaluateClassifier (m : Manager) (classifierName : String) : Manager :=
  { m with jobQueue := m.jobQueue ++ [classifierName] }

/- k consecutive EvaluateClassifier calls with the same name. -/
def enqueueTimes (k : Nat) (m : Manager) (classifierName : String) : Manager :=
  match k with
  | 0 => m
  | Nat.succ j => EvaluateClassifier (enqueueTimes j m classifierName) classifierName

/- Outcome of one restartIfNeeded invocation: how many SIGTERM signals the
   process successfully sent to itself, and whether it panicked. -/
structure RestartOutcome where
  sigterms : Nat
  panicked : Bool
deriving DecidableEq, Repr

/- The loop body of restartIfNeeded in manager.go: scan
   unknownResourcesToWatch; on each entry DeepEqual to gvk, issue
   syscall.Kill(self, SIGTERM); when the kill syscall errors, panic
   (unwinding immediately, so the scan stops). killFails models the result
   of the kill syscall. -/
def restartScan (gvk : GroupVersionKind) (killFails : Bool) :
    List GroupVersionKind → RestartOutcome
  | [] => { sigterms := 0, panicked := false }
  | t :: rest =>
    if t = gvk then
      if killFails then
        { sigterms := 0, panicked := true }
      else
        let o := restartScan gvk killFails rest
        { sigterms := o.sigterms + 1, panicked := o.panicked }
    else restartScan gvk killFails rest

/- restartIfNeeded from manager.go: takes the queue mutex, scans the
   pending (unknownResourcesToWatch) list and signals as above; it mutates
   no manager state, so the state component of the result is the input. -/
def restartIfNeeded (m : Manager) (gvk : GroupVersionKind) (killFails : Bool) :
    Manager × RestartOutcome :=
  (m, restartScan gvk killFails m.unknownResourcesToWatch)

/- The two mutexes of the manager struct: mu (queue) and watchMu (registry). -/
inductive LockId where
  | queueMu
  | watchMu
deriving DecidableEq, Repr

/- Events of the lock-discipline trace of a manager method. -/
inductive Event where
  | acquire (l : LockId)
  | release (l : LockId)
  | readPendingList
  | sendSigterm
deriving DecidableEq, Repr

/- Lock-discipline trace of restartIfNeeded (kill syscall succeeding):
   manager.mu.Lock(); for each entry of unknownResourcesToWatch read it and,
   when DeepEqual to gvk, send SIGTERM; deferred manager.mu.Unlock(). -/
def restartIfNeededTrace (m : Manager) (gvk : GroupVersionKind) : List Event :=
  Event.acquire LockId.queueMu ::
    ((m.unknownResourcesToWatch.flatMap fun t =>
        Event.readPendingList :: if t = gvk then [Event.sendSigterm] else [])
      ++ [Event.release LockId.queueMu])

/- True when every readPendingList event of the trace happens while lock l
   is among the held locks. -/
def readsUnderLockFrom (l : LockId) (held : List LockId) : List Event → Bool
  | [] => true
  | Event.acquire k :: rest => readsUnderLockFrom l (k :: held) rest
  | Event.release k :: rest => readsUnderLockFrom l (held.erase k) rest
  | Event.readPendingList :: rest => held.contains l && readsUnderLockFrom l held rest
  | Event.sendSigterm :: rest => readsUnderLockFrom l held rest

def readsUnderLock (l : LockId) (trace : List Event) : Bool :=
  readsUnderLockFrom l [] trace

/- Semantic version as major.minor.patch, compared lexicographically. -/
structure SemVer where
  major : Nat
  minor : Nat
  patch : Nat
deriving DecidableEq, Repr

/- Strict lexicographic order on semantic versions. -/
def semVerLt (a b : SemVer) : Bool :=
  a.major < b.major ||
    (a.major = b.major &&
      (a.minor < b.minor || (a.minor = b.minor && a.patch < b.patch)))

/- Drop a leading letter v from a version string, per the spec. -/
def dropLeadingV : List Char → List Char
  | 'v' :: rest => rest
  | cs => cs

/- Split a character list into the groups between dots. -/
def splitOnDot : List Char → List (List Char)
  | [] => [[]]
  | c :: rest =>
    if c = '.' then [] :: splitOnDot rest
    else
      match splitOnDot rest with
      | [] => [[c]]
      | g :: gs => (c :: g) :: gs

/- Decimal value accumulated over a digit list; a non-digit fails. -/
def parseNatAux : List Char → Nat → Option Nat
  | [], acc => some acc
  | c :: rest, acc =>
    if c.isDigit then parseNatAux rest (acc * 10 + (c.toNat - 48)) else none

/- Parse a non-empty decimal digit list. -/
def parseNat : List Char → Option Nat
  | [] => none
  | cs => parseNatAux cs 0

/- Modelled from the spec: parse a version string as a semantic version
   major.minor.patch after dropping any leading v; a malformed version
   yields none. -/
def parseSemVer (s : String) : Option SemVer :=
  match splitOnDot (dropLeadingV s.toList) with
  | [a, b, c] =>
    match parseNat a, parseNat b, parseNat c with
    | some x, some y, some z => some { major := x, minor := y, patch := z }
    | _, _, _ => none
  | _ => none

/- Comparison operators of a KubernetesVersionConstraint. -/
inductive Comparison where
  | equal
  | notEqual
  | greaterThan
  | greaterThanOrEqualTo
  | lessThan
  | lessThanOrEqualTo
deriving DecidableEq, Repr

/- Modelled from the spec: the holds-when table of the version predicate,
   applied to the cluster version and the constraint version. -/
def compareVersions (op : Comparison) (cluster v : SemVer) : Bool :=
  match op with
  | Comparison.equal => cluster = v
  | Comparison.notEqual => !(cluster = v : Bool)
  | Comparison.greaterThan => semVerLt v cluster
  | Comparison.greaterThanOrEqualTo => !semVerLt cluster v
  | Comparison.lessThan => semVerLt cluster v
  | Comparison.lessThanOrEqualTo => !semVerLt v cluster

/- libsveltosv1alpha1.KubernetesVersionConstraint. -/
structure KubernetesVersionConstraint where
  comparison : Comparison
  version : String
deriving DecidableEq, Repr

/- Check a list of version constraints against a parsed cluster version:
   a malformed constraint version is a fatal error (none); otherwise the
   verdict is the AND across all constraints. -/
def checkVersionConstraints (cluster : SemVer) :
    List KubernetesVersionConstraint → Option Bool
  | [] => some true
  | c :: rest =>
    match parseSemVer c.version with
    | none => none
    | some v =>
      match checkVersionConstraints cluster rest with
      | none => none
      | some b => some (compareVersions c.comparison cluster v && b)

/- Modelled from the spec: IsVersionAMatch (implementation file not in the
   sources in view; behavior fixed by the spec's version-predicate table and
   by evaluation_test.go). The cluster Kubernetes version string and every
   constraint version are parsed as semantic versions after dropping a
   leading v; the verdict is the logical AND over all constraints; a
   malformed version is an evaluation error (none). -/
def IsVersionAMatch (clusterVersion : String)
    (constraints : List KubernetesVersionConstraint) : Option Bool :=
  match parseSemVer clusterVersion with
  | none => none
  | some cv => checkVersionConstraints cv constraints

/- A constraint holds for a parsed cluster version: its version string
   parses and the comparison of the table is true. -/
def VersionConstraintHolds (cluster : SemVer) (c : KubernetesVersionConstraint) : Prop :=
  ∃ v, parseSemVer c.version = some v ∧ compareVersions c.comparison cluster v = true

/- Label filter operators. -/
inductive Operation where
  | opEqual
  | opDifferent
deriving DecidableEq, Repr

/- libsveltosv1alpha1.LabelFilter. -/
structure LabelFilter where
  key : String
  operation : Operation
  value : String
deriving DecidableEq, Repr

/- libsveltosv1alpha1.FieldFilter: field is a dotted JSON path. -/
structure FieldFilter where
  field : String
  operation : Operation
  value : String
deriving DecidableEq, Repr

/- A dynamically-typed (unstructured) resource: its namespace, its labels,
   and the stringified leaf value at each dotted path that resolves. -/
structure Resource where
  nsp : String
  labels : List (String × String)
  fields : List (String × String)
deriving DecidableEq, Repr

/- Value of a label key on a resource, when present. -/
def getLabel (r : Resource) (key : String) : Option String :=
  (r.labels.find? fun p => p.1 = key).map fun p => p.2

/- Modelled from the spec: walk the dotted path on the resource; a missing
   path stringifies to the empty string. -/
def getField (r : Resource) (path : String) : String :=
  match r.fields.find? fun p => p.1 = path with
  | some p => p.2
  | none => ""

/- Modelled from the spec: a label filter holds on a resource; Equal
   requires the label present with equal value, Different requires the
   label absent or with a different value. -/
def labelFilterHolds (r : Resource) (lf : LabelFilter) : Bool :=
  match lf.operation with
  | Operation.opEqual =>
    match getLabel r lf.key with
    | some v => v = lf.value
    | none => false
  | Operation.opDifferent =>
    match getLabel r lf.key with
    | some v => !(v = lf.value : Bool)
    | none => true

/- Modelled from the spec: a field filter holds on a resource; the leaf is
   stringified (missing path gives the empty string) and compared for
   string equality per the operator. -/
def fieldFilterHolds (r : Resource) (ff : FieldFilter) : Bool :=
  match ff.operation with
  | Operation.opEqual => getField r ff.field = ff.value
  | Operation.opDifferent => !(getField r ff.field = ff.value : Bool)

/- libsveltosv1alpha1.DeployedResourceConstraint. nsp is the namespace
   field; empty means cluster-wide. Counts are inclusive bounds. -/
structure DeployedResourceConstraint where
  group : String
  version : String
  kind : String
  nsp : String
  minCount : Option Int
  maxCount : Option Int
  labelFilters : List LabelFilter
  fieldFilters : List FieldFilter
deriving DecidableEq, Repr

/- The cluster state the resource predicate observes: every deployed
   resource together with its GroupVersionKind. -/
abbrev Cluster := List (GroupVersionKind × Resource)

/- Modelled from the spec: list all resources of the constraint's
   (group, version, kind) in its namespace, or cluster-wide when the
   namespace is empty. -/
def listResources (cluster : Cluster) (c : DeployedResourceConstraint) : List Resource :=
  (cluster.filter fun p =>
      p.1 = { group := c.group, version := c.version, kind := c.kind : GroupVersionKind }
        && (c.nsp == "" || p.2.nsp == c.nsp)).map
    fun p => p.2

/- Modelled from the spec: IsResourceAMatch (implementation file not in the
   sources in view; behavior fixed by the spec's resource predicate and by
   evaluation_test.go). List the resources of the constraint's kind and
   namespace, keep those passing every label filter, then those passing
   every field filter; with n survivors the constraint holds iff n is
   within the inclusive [minCount, maxCount] bounds, each bound checked
   only when non-nil. -/
def IsResourceAMatch (cluster : Cluster) (c : DeployedResourceConstraint) : Bool :=
  let listed := listResources cluster c
  let labelSurvivors := listed.filter fun r => c.labelFilters.all fun lf => labelFilterHolds r lf
  let fieldSurvivors := labelSurvivors.filter fun r => c.fieldFilters.all fun ff => fieldFilterHolds r ff
  let n : Int := fieldSurvivors.length
  (match c.minCount with
   | none => true
   | some m => decide (m ≤ n)) &&
  (match c.maxCount with
   | none => true
   | some m => decide (n ≤ m))

/- The spec's wording of the resource predicate, as a proposition: with n
   the number of listed resources surviving all label filters and all field
   filters, the constraint holds iff minCount is nil or n is at least
   minCount, and maxCount is nil or n is at most maxCount. -/
def ResourceMatchSpec (cluster : Cluster) (c : DeployedResourceConstraint) : Prop :=
  let n : Int :=
    ((listResources cluster c).filter fun r =>
        (c.labelFilters.all fun lf => labelFilterHolds r lf)
          && (c.fieldFilters.all fun ff => fieldFilterHolds r ff)).length
  (∀ m, c.minCount = some m → m ≤ n) ∧ (∀ m, c.maxCount = some m → n ≤ m)

/- Report lifecycle phases of a ClassifierReport status. -/
inductive ReportPhase where
  | waitingForDelivery
  | delivering
  | processed
deriving DecidableEq, Repr

/- Namespace local reports are written to. -/
def reportNamespace : String := "projectsveltos"

/- Label key carrying the classifier name on a report. -/
def classifierLabelName : String := "projectsveltos.io/classifier-name"

/- Label key carrying the cluster name on a forwarded report. -/
def classifierReportClusterNameLabel : String := "classifier-report-cluster-name"

/- Label key carrying the (lower-cased) cluster type on a forwarded report. -/
def classifierReportClusterTypeLabel : String := "classifier-report-cluster-type"

/- Value of a key in an ordered label list. -/
def lookupKey (l : List (String × String)) (key : String) : Option String :=
  (l.find? fun p => p.1 = key).map fun p => p.2

/- libsveltosv1alpha1.ClassifierReport: metadata (namespace nsp, name,
   labels), spec fields and the status phase. -/
structure ClassifierReport where
  nsp : String
  name : String
  labels : List (String × String)
  specClassifierName : String
  specMatch : Bool
  specClusterName : String
  specClusterNamespace : String
  specClusterType : Option ClusterType
  phase : Option ReportPhase
deriving DecidableEq, Repr

/- Modelled from the spec: CreateClassifierReport (implementation file not
   in the sources in view; behavior fixed by the spec's Report Reconciler
   and by evaluation_test.go). existing is the report currently stored at
   (projectsveltos, rule name), none on first creation. On create the
   report gets label classifierName = rule name, spec = (classifierName,
   match) and phase WaitingForDelivery; on update spec.match is set and
   phase resets to WaitingForDelivery exactly when the new match differs
   from the stored one or the stored phase is Processed. -/
def CreateClassifierReport (existing : Option ClassifierReport)
    (classifierName : String) (isMatch : Bool) : ClassifierReport :=
  match existing with
  | none =>
    { nsp := reportNamespace
      name := classifierName
      labels := [(ClassifierAgent.classifierLabelName, classifierName)]
      specClassifierName := classifierName
      specMatch := isMatch
      specClusterName := ""
      specClusterNamespace := ""
      specClusterType := none
      phase := some ReportPhase.waitingForDelivery }
  | some r =>
    { r with
      specMatch := isMatch
      phase :=
        if isMatch ≠ r.specMatch ∨ r.phase = some ReportPhase.processed then
          some ReportPhase.waitingForDelivery
        else r.phase }

/- Modelled from the spec: GetClassifierReportName, the deterministic name
   of the forwarded report, a pure function of the rule name, the cluster
   name and the cluster type. -/
def getClassifierReportName (classifierName clusterName : String)
    (clusterType : ClusterType) : String :=
  (clusterTypeString clusterType).toLower ++ "--" ++ classifierName ++ "--" ++ clusterName

/- Modelled from the spec: SendClassifierReport (implementation file not in
   the sources in view; behavior fixed by the spec's Report Forwarder step 2
   and by evaluation_test.go): the report created in the management cluster
   for a rule whose local report carries localMatch. Its name is the
   deterministic name; its spec carries clusterName, clusterNamespace,
   clusterType and the local match; its labels carry classifierName, the
   cluster name, and the cluster type lower-cased. -/
def SendClassifierReport (m : Manager) (classifierName : String)
    (localMatch : Bool) : ClassifierReport :=
  { nsp := m.clusterNamespace
    name := getClassifierReportName classifierName m.clusterName m.clusterType
    labels :=
      [(ClassifierAgent.classifierLabelName, classifierName),
       (classifierReportClusterNameLabel, m.clusterName),
       (classifierReportClusterTypeLabel, (clusterTypeString m.clusterType).toLower)]
    specClassifierName := classifierName
    specMatch := localMatch
    specClusterName := m.clusterName
    specClusterNamespace := m.clusterNamespace
    specClusterType := some m.clusterType
    phase := none }

/- libsveltosv1alpha1.Classifier spec, restricted to the fields the
   evaluator reads. -/
structure Classifier where
  name : String
  classifierLabels : List (String × String)
  kubernetesVersionConstraints : List KubernetesVersionConstraint
  deployedResourceConstraints : List DeployedResourceConstraint
deriving DecidableEq, Repr

/- Modelled from the spec: the overall rule verdict, match =
   version-predicate AND every resource predicate; a version evaluation
   error propagates. -/
def evaluateClassifierMatch (clusterVersion : String) (cluster : Cluster)
    (cl : Classifier) : Option Bool :=
  match IsVersionAMatch clusterVersion cl.kubernetesVersionConstraints with
  | none => none
  | some vb =>
    some (vb && cl.deployedResourceConstraints.all fun c => IsResourceAMatch cluster c)

theorem restartScan_spec (gvk : GroupVersionKind) (l : List GroupVersionKind) :
    ((restartScan gvk false l).sigterms ≠ 0 ↔ gvk ∈ l)
    ∧ (restartScan gvk false l).panicked = false := by
  induction l with
  | nil => simp [restartScan]
  | cons t rest ih =>
    by_cases ht : t = gvk
    · subst ht
      simp only [restartScan, if_pos rfl, Bool.false_eq_true, if_false]
      refine ⟨?_, ih.2⟩
      simp [List.mem_cons]
    · have hne : ¬(gvk = t) := fun hh => ht hh.symm
      simp only [restartScan, if_neg ht]
      refine ⟨?_, ih.2⟩
      rw [List.mem_cons]
      constructor
      · intro hh
        exact Or.inr (ih.1.mp hh)
      · intro hh
        rcases hh with hh | hh
        · exact absurd hh hne
        · exact ih.1.mpr hh

theorem restartScan_panicked_iff (gvk : GroupVersionKind) (killFails : Bool)
    (l : List GroupVersionKind) :
    ((restartScan gvk killFails l).panicked = true ↔ (gvk ∈ l ∧ killFails = true)) := by
  induction l with
  | nil => simp [restartScan]
  | cons t rest ih =>
    by_cases ht : t = gvk
    · subst ht
      cases killFails with
      | true => simp [restartScan]
      | false =>
        simp [restartScan, (restartScan_spec t rest).2]
    · have hne : ¬(gvk = t) := fun hh => ht hh.symm
      simp only [restartScan, if_neg ht, ih, List.mem_cons]
      constructor
      · intro hh
        exact ⟨Or.inr hh.1, hh.2⟩
      · intro hh
        rcases hh.1 with h1 | h1
        · exact absurd h1 hne
        · exact ⟨h1, hh.2⟩

/-- Claim C5: when the kill syscall succeeds, restartIfNeeded leaves the manager
state unchanged, sends SIGTERM to the process exactly when the GroupVersionKind
is equal to some entry of the pending unknownResourcesToWatch list, and never
panics; in particular a GroupVersionKind not in the pending list terminates
nothing and changes nothing. -/
theorem restartIfNeeded_sigterm_iff (m : Manager) (gvk : GroupVersionKind) :
    (restartIfNeeded m gvk false).1 = m
    ∧ ((restartIfNeeded m gvk false).2.sigterms ≠ 0 ↔ gvk ∈ m.unknownResourcesToWatch)
    ∧ (restartIfNeeded m gvk false).2.panicked = false :=
  ⟨rfl, (restartScan_spec gvk m.unknownResourcesToWatch).1,
    (restartScan_spec gvk m.unknownResourcesToWatch).2⟩

/-- Witness for C5 at a concrete manager whose pending list holds one entry. -/
theorem restartIfNeeded_sigterm_iff_witness :
    ((restartIfNeeded
        { sendReport := false, clusterNamespace := "ns", clusterName := "c",
          clusterType := ClusterType.capi, rebuildResourceToWatch := 0,
          resourcesToWatch := [], jobQueue := [], interval := 10, watchers := [],
          unknownResourcesToWatch := [{ group := "example.com", version := "v1", kind := "Widget" }] }
        { group := "example.com", version := "v1", kind := "Widget" } false).2.sigterms ≠ 0) :=
  (restartIfNeeded_sigterm_iff _ _).2.1.mpr (by decide)

/-- Claim C10: restartIfNeeded panics exactly when the GroupVersionKind is in
the pending list and the SIGTERM kill syscall errors; when the syscall
succeeds the panic branch is unreachable. -/
theorem restartIfNeeded_panics_iff (m : Manager) (gvk : GroupVersionKind) (killFails : Bool) :
    ((restartIfNeeded m gvk killFails).2.panicked = true ↔
      (gvk ∈ m.unknownResourcesToWatch ∧ killFails = true)) :=
  restartScan_panicked_iff gvk killFails m.unknownResourcesToWatch

/-- Witness for C10 at a concrete manager: pending entry plus failing kill
syscall panics. -/
theorem restartIfNeeded_panics_iff_witness :
    ((restartIfNeeded
        { sendReport := false, clusterNamespace := "ns", clusterName := "c",
          clusterType := ClusterType.capi, rebuildResourceToWatch := 0,
          resourcesToWatch := [], jobQueue := [], interval := 10, watchers := [],
          unknownResourcesToWatch := [{ group := "example.com", version := "v1", kind := "Widget" }] }
        { group := "example.com", version := "v1", kind := "Widget" } true).2.panicked = true) :=
  (restartIfNeeded_panics_iff _ _ true).mpr (by exact ⟨by decide, rfl⟩)

/-- Claim C7: the manager is initialized exactly once; the first
InitializeManager call builds the instance from its arguments, every later
call leaves the existing instance unchanged regardless of arguments, and
GetManager returns nil before initialization and the unique instance after. -/
theorem initializeManager_singleton (ns1 n1 : String) (t1 : ClusterType) (i1 : Nat)
    (s1 : Bool) (m : Manager) (ns2 n2 : String) (t2 : ClusterType) (i2 : Nat) (s2 : Bool) :
    GetManager none = none
    ∧ InitializeManager none ns1 n1 t1 i1 s1 = some (newManager ns1 n1 t1 i1 s1)
    ∧ InitializeManager (some m) ns2 n2 t2 i2 s2 = some m
    ∧ GetManager (some m) = some m :=
  ⟨rfl, rfl, rfl, rfl⟩

theorem enqueueTimes_count (m : Manager) (nm : String) (k : Nat) :
    (enqueueTimes k m nm).jobQueue.count nm = m.jobQueue.count nm + k := by
  induction k with
  | zero => rfl
  | succ j ih =>
    simp only [enqueueTimes, EvaluateClassifier]
    rw [List.count_append, ih]
    simp [List.count_cons]
    omega

/-- Claim C8: EvaluateClassifier appends the classifier name at the tail of
jobQueue, preserving existing entries and their order, modifies no other
manager field, and k consecutive calls with the same name add k copies of it
to the queue. -/
theorem evaluateClassifier_enqueues (m : Manager) (nm : String) (k : Nat) :
    (EvaluateClassifier m nm).jobQueue = m.jobQueue ++ [nm]
    ∧ (EvaluateClassifier m nm).sendReport = m.sendReport
    ∧ (EvaluateClassifier m nm).clusterNamespace = m.clusterNamespace
    ∧ (EvaluateClassifier m nm).clusterName = m.clusterName
    ∧ (EvaluateClassifier m nm).clusterType = m.clusterType
    ∧ (EvaluateClassifier m nm).rebuildResourceToWatch = m.rebuildResourceToWatch
    ∧ (EvaluateClassifier m nm).resourcesToWatch = m.resourcesToWatch
    ∧ (EvaluateClassifier m nm).interval = m.interval
    ∧ (EvaluateClassifier m nm).watchers = m.watchers
    ∧ (EvaluateClassifier m nm).unknownResourcesToWatch = m.unknownResourcesToWatch
    ∧ (enqueueTimes k m nm).jobQueue.count nm = m.jobQueue.count nm + k :=
  ⟨rfl, rfl, rfl, rfl, rfl, rfl, rfl, rfl, rfl, rfl, enqueueTimes_count m nm k⟩

/-- Counterexample to claim C9: on a manager whose pending list holds one
entry, the CRD callback restartIfNeeded reads unknownResourcesToWatch without
holding watchMu, so its accesses are not all under the registry mutex. -/
theorem restartIfNeeded_not_under_watchMu :
    readsUnderLock LockId.watchMu
      (restartIfNeededTrace
        { sendReport := false, clusterNamespace := "ns", clusterName := "c",
          clusterType := ClusterType.capi, rebuildResourceToWatch := 0,
          resourcesToWatch := [], jobQueue := [], interval := 10, watchers := [],
          unknownResourcesToWatch := [{ group := "example.com", version := "v1", kind := "Widget" }] }
        { group := "example.com", version := "v1", kind := "Widget" }) = false := by
  decide

theorem readsUnderLockFrom_middle (gvk : GroupVersionKind) (l : List GroupVersionKind) :
    readsUnderLockFrom LockId.queueMu [LockId.queueMu]
      ((l.flatMap fun t =>
          Event.readPendingList :: if t = gvk then [Event.sendSigterm] else [])
        ++ [Event.release LockId.queueMu]) = true := by
  induction l with
  | nil => rfl
  | cons t rest ih =>
    by_cases ht : t = gvk
    · simp only [List.flatMap_cons, if_pos ht, List.cons_append, List.append_assoc,
        List.singleton_append, readsUnderLockFrom]
      simpa using ih
    · simp only [List.flatMap_cons, if_neg ht, List.cons_append, List.nil_append,
        readsUnderLockFrom]
      simpa using ih

/-- Claim C9 (amended): restartIfNeeded accesses the pending
unknownResourcesToWatch list while holding the queue mutex mu, not the
registry mutex watchMu. -/
theorem restartIfNeeded_under_queueMu (m : Manager) (gvk : GroupVersionKind) :
    readsUnderLock LockId.queueMu (restartIfNeededTrace m gvk) = true := by
  unfold readsUnderLock restartIfNeededTrace
  simp only [readsUnderLockFrom]
  exact readsUnderLockFrom_middle gvk m.unknownResourcesToWatch

theorem checkVersionConstraints_eq_true_iff (cv : SemVer)
    (cs : List KubernetesVersionConstraint) :
    checkVersionConstraints cv cs = some true ↔ ∀ c ∈ cs, VersionConstraintHolds cv c := by
  induction cs with
  | nil => simp [checkVersionConstraints]
  | cons c rest ih =>
    rw [List.forall_mem_cons]
    cases hp : parseSemVer c.version with
    | none =>
      simp only [checkVersionConstraints, hp]
      constructor
      · intro hcontra
        exact absurd hcontra (by simp)
      · rintro ⟨⟨v, hv, _⟩, _⟩
        rw [hp] at hv
        exact Option.noConfusion hv
    | some v =>
      cases hr : checkVersionConstraints cv rest with
      | none =>
        simp only [checkVersionConstraints, hp, hr]
        constructor
        · intro hcontra
          exact absurd hcontra (by simp)
        · rintro ⟨_, hrest⟩
          have hb := ih.mpr hrest
          rw [hr] at hb
          exact Option.noConfusion hb
      | some b =>
        rw [hr] at ih
        simp only [checkVersionConstraints, hp, hr, Option.some.injEq, Bool.and_eq_true] at ih ⊢
        constructor
        · rintro ⟨h1, h2⟩
          exact ⟨⟨v, hp, h1⟩, ih.mp h2⟩
        · rintro ⟨⟨v2, hv2, hcomp⟩, hrest⟩
          rw [hp] at hv2
          injection hv2 with hv2
          subst hv2
          exact ⟨hcomp, ih.mpr hrest⟩

/-- Claim C1: given the cluster Kubernetes version parses as a semantic
version (after dropping a leading v), IsVersionAMatch returns true exactly
when every constraint (op, v) of the list holds per the comparison table,
the verdict being the logical AND over all constraints. -/
theorem IsVersionAMatch_iff_all_hold (clusterVersion : String)
    (cs : List KubernetesVersionConstraint) (cv : SemVer)
    (h : parseSemVer clusterVersion = some cv) :
    IsVersionAMatch clusterVersion cs = some true ↔
      ∀ c ∈ cs, VersionConstraintHolds cv c := by
  unfold IsVersionAMatch
  rw [h]
  exact checkVersionConstraints_eq_true_iff cv cs

/-- Witness for C1 at the spec's compound end-to-end scenario: cluster
v1.25.0 against greater-or-equal v1.24.2 and less-than v1.26.0. -/
theorem IsVersionAMatch_iff_all_hold_witness :
    (IsVersionAMatch "v1.25.0"
        [{ comparison := Comparison.greaterThanOrEqualTo, version := "v1.24.2" },
         { comparison := Comparison.lessThan, version := "v1.26.0" }] = some true ↔
      ∀ c ∈ ([{ comparison := Comparison.greaterThanOrEqualTo, version := "v1.24.2" },
              { comparison := Comparison.lessThan, version := "v1.26.0" }] :
              List KubernetesVersionConstraint),
        VersionConstraintHolds { major := 1, minor := 25, patch := 0 } c) :=
  IsVersionAMatch_iff_all_hold "v1.25.0" _ { major := 1, minor := 25, patch := 0 } rfl

/-- Claim C2: IsResourceAMatch lists the resources of the constraint's
(group, version, kind) in its namespace (cluster-wide when empty), keeps
those for which every label filter and every field filter holds, and with n
survivors returns true exactly when n is at least minCount when set and at
most maxCount when set, both bounds inclusive. -/
theorem IsResourceAMatch_iff_spec (cluster : Cluster) (c : DeployedResourceConstraint) :
    IsResourceAMatch cluster c = true ↔ ResourceMatchSpec cluster c := by
  unfold IsResourceAMatch ResourceMatchSpec
  dsimp only
  rw [List.filter_filter]
  have hflip :
      (listResources cluster c).filter
          (fun r => (c.fieldFilters.all fun ff => fieldFilterHolds r ff)
            && (c.labelFilters.all fun lf => labelFilterHolds r lf)) =
        (listResources cluster c).filter
          (fun r => (c.labelFilters.all fun lf => labelFilterHolds r lf)
            && (c.fieldFilters.all fun ff => fieldFilterHolds r ff)) := by
    apply List.filter_congr
    intro a _
    exact Bool.and_comm _ _
  rw [hflip]
  cases hmin : c.minCount with
  | none =>
    cases hmax : c.maxCount with
    | none => simp
    | some m2 => simp [decide_eq_true_eq]
  | some m1 =>
    cases hmax : c.maxCount with
    | none => simp [decide_eq_true_eq]
    | some m2 => simp [decide_eq_true_eq]

/-- Witness for C2 at a concrete cluster of two pods, one in the namespace,
with an inclusive count bound of one. -/
theorem IsResourceAMatch_iff_spec_witness :
    (IsResourceAMatch
        [({ group := "", version := "v1", kind := "Pod" },
          { nsp := "eng", labels := [("app", "web")], fields := [] }),
         ({ group := "", version := "v1", kind := "Pod" },
          { nsp := "ops", labels := [], fields := [] })]
        { group := "", version := "v1", kind := "Pod", nsp := "eng",
          minCount := some 1, maxCount := some 1, labelFilters := [], fieldFilters := [] } = true ↔
      ResourceMatchSpec
        [({ group := "", version := "v1", kind := "Pod" },
          { nsp := "eng", labels := [("app", "web")], fields := [] }),
         ({ group := "", version := "v1", kind := "Pod" },
          { nsp := "ops", labels := [], fields := [] })]
        { group := "", version := "v1", kind := "Pod", nsp := "eng",
          minCount := some 1, maxCount := some 1, labelFilters := [], fieldFilters := [] }) :=
  IsResourceAMatch_iff_spec _ _

/-- Claim C3: a classifier with an empty version-constraint list passes the
version predicate, one with an empty resource-constraint list passes the
resource predicate, and a classifier with no constraints at all evaluates to
match = true (given the cluster version string parses). -/
theorem emptyConstraints_vacuous_match (clusterVersion : String) (cv : SemVer)
    (h : parseSemVer clusterVersion = some cv) (cluster : Cluster) (cl : Classifier) :
    IsVersionAMatch clusterVersion [] = some true
    ∧ (([] : List DeployedResourceConstraint).all fun c => IsResourceAMatch cluster c) = true
    ∧ (cl.kubernetesVersionConstraints = [] → cl.deployedResourceConstraints = [] →
        evaluateClassifierMatch clusterVersion cluster cl = some true) := by
  refine ⟨?_, rfl, ?_⟩
  · unfold IsVersionAMatch
    rw [h]
    rfl
  · intro h1 h2
    unfold evaluateClassifierMatch IsVersionAMatch
    rw [h1, h2, h]
    rfl

/-- Witness for C3: a classifier with no constraints at all is a match on a
cluster at version v1.25.0. -/
theorem emptyConstraints_vacuous_match_witness :
    evaluateClassifierMatch "v1.25.0" []
      { name := "empty", classifierLabels := [],
        kubernetesVersionConstraints := [], deployedResourceConstraints := [] } = some true :=
  (emptyConstraints_vacuous_match "v1.25.0" { major := 1, minor := 25, patch := 0 } rfl []
    { name := "empty", classifierLabels := [],
      kubernetesVersionConstraints := [], deployedResourceConstraints := [] }).2.2 rfl rfl

/-- Claim C4: on first creation CreateClassifierReport writes the report at
(projectsveltos, rule name) with the classifierName label, spec carrying the
classifier name and the verdict, and phase WaitingForDelivery; on update it
sets spec.match to the new verdict and resets phase to WaitingForDelivery
exactly when the new match differs from the stored one or the stored phase is
Processed, leaving the phase unchanged otherwise. -/
theorem createClassifierReport_correct (classifierName : String) (isMatch : Bool)
    (r : ClassifierReport) :
    CreateClassifierReport none classifierName isMatch =
      { nsp := reportNamespace, name := classifierName,
        labels := [(ClassifierAgent.classifierLabelName, classifierName)],
        specClassifierName := classifierName, specMatch := isMatch,
        specClusterName := "", specClusterNamespace := "", specClusterType := none,
        phase := some ReportPhase.waitingForDelivery }
    ∧ (CreateClassifierReport (some r) classifierName isMatch).specMatch = isMatch
    ∧ ((isMatch ≠ r.specMatch ∨ r.phase = some ReportPhase.processed) →
        (CreateClassifierReport (some r) classifierName isMatch).phase =
          some ReportPhase.waitingForDelivery)
    ∧ (isMatch = r.specMatch → r.phase ≠ some ReportPhase.processed →
        (CreateClassifierReport (some r) classifierName isMatch).phase = r.phase) := by
  refine ⟨rfl, rfl, ?_, ?_⟩
  · intro hcond
    show (if isMatch ≠ r.specMatch ∨ r.phase = some ReportPhase.processed then
        some ReportPhase.waitingForDelivery else r.phase) = some ReportPhase.waitingForDelivery
    exact if_pos hcond
  · intro he hph
    show (if isMatch ≠ r.specMatch ∨ r.phase = some ReportPhase.processed then
        some ReportPhase.waitingForDelivery else r.phase) = r.phase
    exact if_neg fun hc => hc.elim (fun hne => hne he) fun hp => hph hp

/-- Witness for C4: an update carrying the same verdict onto a Processed
report resets the phase to WaitingForDelivery. -/
theorem createClassifierReport_correct_witness :
    (CreateClassifierReport
        (some { nsp := "projectsveltos", name := "c1", labels := [],
                specClassifierName := "c1", specMatch := true, specClusterName := "",
                specClusterNamespace := "", specClusterType := none,
                phase := some ReportPhase.processed }) "c1" true).phase =
      some ReportPhase.waitingForDelivery :=
  (createClassifierReport_correct "c1" true _).2.2.1 (Or.inr rfl)

/-- Claim C6: the report SendClassifierReport creates in the management
cluster carries the deterministic name built from the rule name, the cluster
name and the cluster type, a spec with clusterName, clusterNamespace,
clusterType and the local match value, and labels with the classifier name,
the cluster name, and the cluster type lower-cased. -/
theorem sendClassifierReport_fields (m : Manager) (classifierName : String)
    (localMatch : Bool) :
    (SendClassifierReport m classifierName localMatch).name =
      getClassifierReportName classifierName m.clusterName m.clusterType
    ∧ (SendClassifierReport m classifierName localMatch).nsp = m.clusterNamespace
    ∧ (SendClassifierReport m classifierName localMatch).specClassifierName = classifierName
    ∧ (SendClassifierReport m classifierName localMatch).specMatch = localMatch
    ∧ (SendClassifierReport m classifierName localMatch).specClusterName = m.clusterName
    ∧ (SendClassifierReport m classifierName localMatch).specClusterNamespace = m.clusterNamespace
    ∧ (SendClassifierReport m classifierName localMatch).specClusterType = some m.clusterType
    ∧ lookupKey (SendClassifierReport m classifierName localMatch).labels
        ClassifierAgent.classifierLabelName = some classifierName
    ∧ lookupKey (SendClassifierReport m classifierName localMatch).labels
        classifierReportClusterNameLabel = some m.clusterName
    ∧ lookupKey (SendClassifierReport m classifierName localMatch).labels
        classifierReportClusterTypeLabel = some ((clusterTypeString m.clusterType).toLower) :=
  ⟨rfl, rfl, rfl, rfl, rfl, rfl, rfl, rfl, rfl, rfl⟩

end ClassifierAgent
